import Mathlib

/-!
Verification of the client-side fetch/cache helper of the justdeen-data
repository.  The definitions below are a shallow embedding of the
JavaScript `QuranService` (QuranService.js) and of the Dart example
services shown in the README (`QuranService.getChapter`,
`QuranService.searchVerses`, `HadithService.getHadith`).  Times are epoch
milliseconds modelled as `Nat`; JSON documents are modelled by concrete
structures carrying exactly the fields the code reads; the host storage
backend is an association list plus a `broken` flag standing for a backend
whose operations throw.
-/

namespace JustDeen

/-! ### String helpers

`leadsList` is Boolean list-prefix testing, `seqIn` Boolean contiguous
containment; `strStarts s pat` embeds JavaScript `s.startsWith(pat)` and
`strHasSub s pat` embeds JavaScript `s.includes(pat)` (both total, and
`includes` of the empty string is `true`, as in JS).  `padLeft3` embeds
`String.padStart(3, "0")` for the strings the service builds. -/

def leadsList {α : Type} [BEq α] : List α → List α → Bool
  | [], _ => true
  | _ :: _, [] => false
  | a :: as, b :: bs => a == b && leadsList as bs

def seqIn {α : Type} [BEq α] (pat : List α) : List α → Bool
  | [] => pat.isEmpty
  | c :: rest => leadsList pat (c :: rest) || seqIn pat rest

def strStarts (s pat : String) : Bool := leadsList pat.toList s.toList

def strHasSub (s pat : String) : Bool := seqIn pat.toList s.toList

/-- Embeds JavaScript `toLowerCase()` (character-wise lowering; the
queries and language tags involved are ASCII). -/
def lowerStr (s : String) : String := ⟨s.toList.map Char.toLower⟩

def padLeft3 (s : String) : String :=
  if s.length ≥ 3 then s
  else if s.length = 2 then "0" ++ s
  else if s.length = 1 then "00" ++ s
  else "000" ++ s

/-! ### Persistent key/value cache

`QuranService.getCachedData` / `setCachedData` store under key
`"quran-" ++ key` an envelope `{ data, expires, cached }`.  A stored
string that does not parse as JSON is `StoredValue.malformed`; reads of
such entries, of absent entries, or through a throwing backend
(`broken = true`) are caught by the `try/catch` in the source and yield a
miss.  `expires` is `null` (`none`) when the write carried no positive
TTL. -/

inductive StoredValue (V : Type) where
  | malformed
  | item (data : V) (expires : Option Nat) (cached : Nat)
deriving Repr, DecidableEq

structure Storage (V : Type) where
  items : List (String × StoredValue V)
  broken : Bool
deriving Repr, DecidableEq

/-- `localStorage.setItem`: replace in place or append. -/
def setItem {α : Type} : List (String × α) → String → α → List (String × α)
  | [], k, v => [(k, v)]
  | (k', v') :: rest, k, v =>
    if k' == k then (k, v) :: rest else (k', v') :: setItem rest k v

/-- `localStorage.removeItem`. -/
def removeItem {α : Type} (l : List (String × α)) (k : String) : List (String × α) :=
  l.filter (fun p => !(p.1 == k))

/-- Embeds `QuranService.getCachedData(key)`: read `quran-` ++ key, treat a
missing, unparseable or backend-throwing read as a miss (`none`); an entry
whose `expires` is set and strictly in the past is removed and reported as
a miss.  Returns the value (if any) and the possibly updated storage. -/
def getCachedData {V : Type} (st : Storage V) (now : Nat) (key : String) :
    Option V × Storage V :=
  if st.broken then (none, st)
  else
    match st.items.lookup ("quran-" ++ key) with
    | none => (none, st)
    | some .malformed => (none, st)
    | some (.item v ex _) =>
      match ex with
      | some e =>
        if now > e then (none, ⟨removeItem st.items ("quran-" ++ key), st.broken⟩)
        else (some v, st)
      | none => (some v, st)

/-- Embeds `QuranService.setCachedData(key, data, ttlMs)`: stores
`{ data, expires: ttlMs > 0 ? now + ttlMs : null, cached: now }` under
`quran-` ++ key; a throwing backend is caught and leaves storage
unchanged. -/
def setCachedData {V : Type} (st : Storage V) (now : Nat) (key : String)
    (data : V) (ttlMs : Nat) : Storage V :=
  if st.broken then st
  else
    ⟨setItem st.items ("quran-" ++ key)
      (.item data (if 0 < ttlMs then some (now + ttlMs) else none) now),
     st.broken⟩

/-! ### Content documents

Chapter documents carry exactly the fields the helper reads:
`chapter`, and `content`, an ordered sequence of verse records with
`verse`, `arabic`, optional `translations` (a language-tag keyed map,
modelled as an association list; an absent map is the empty list) and
optional `transliteration`.  The remaining document fields are never read
by the embedded operations. -/

structure Verse where
  verse : Nat
  arabic : String
  translations : List (String × String)
  transliteration : Option String
deriving Repr, DecidableEq

structure Chapter where
  chapter : Nat
  content : List Verse
deriving Repr, DecidableEq

/-! ### The QuranService client (QuranService.js) -/

/-- I/O operations the service can perform, recorded as a trace. -/
inductive IOEvent where
  | memRead (key : String)
  | storeRead (key : String)
  | storeWrite (key : String)
  | netGet (url : String)
deriving Repr, DecidableEq

/-- The mutable service state: `this.cache` (a JS `Map`, insertion
ordered) and `this.storage`. -/
structure SvcState where
  cache : List (String × Chapter)
  storage : Storage Chapter
deriving Repr, DecidableEq

inductive ChapterOutcome where
  | ok (c : Chapter)
  | invalidChapter
  | fetchError
deriving Repr, DecidableEq

structure LCResult where
  outcome : ChapterOutcome
  state : SvcState
  events : List IOEvent
deriving Repr, DecidableEq

/-- TTL passed by `loadChapter` to `setCachedData`: `7 * 24 * 60 * 60 * 1000`. -/
def chapterTTL : Nat := 7 * 24 * 60 * 60 * 1000

/-- TTL passed by `loadQuranIndex` to `setCachedData`: `24 * 60 * 60 * 1000`. -/
def indexTTL : Nat := 24 * 60 * 60 * 1000

/-- Embeds `QuranService.loadChapter(chapterNumber)`.  The network is a
function from the chapter number to the fetch outcome (`Except.error` is
a non-2xx status or a transport error, both of which `fetch`/`response.ok`
turn into a thrown error in the source).  Flow: range check, memory
cache, persistent cache when `offlineFirst`, network with write-through,
and on network failure a final `getCachedData` fallback. -/
def loadChapter (net : Int → Except Unit Chapter) (now : Nat) (offlineFirst : Bool)
    (st : SvcState) (chapterNumber : Int) : LCResult :=
  if chapterNumber < 1 ∨ 114 < chapterNumber then
    ⟨.invalidChapter, st, []⟩
  else
    let cacheKey := "chapter-" ++ toString chapterNumber
    match st.cache.lookup cacheKey with
    | some c => ⟨.ok c, st, [.memRead cacheKey]⟩
    | none =>
      let offRead : Option Chapter × Storage Chapter × List IOEvent :=
        if offlineFirst then
          let r := getCachedData st.storage now cacheKey
          (r.1, r.2, [.memRead cacheKey, .storeRead ("quran-" ++ cacheKey)])
        else (none, st.storage, [.memRead cacheKey])
      match offRead with
      | (some c, stor, evs) => ⟨.ok c, ⟨setItem st.cache cacheKey c, stor⟩, evs⟩
      | (none, stor, evs) =>
        let url := "/data/quran/chapters/" ++ padLeft3 (toString chapterNumber) ++ ".json"
        match net chapterNumber with
        | .ok d =>
          ⟨.ok d,
           ⟨setItem st.cache cacheKey d, setCachedData stor now cacheKey d chapterTTL⟩,
           evs ++ [.netGet url, .storeWrite ("quran-" ++ cacheKey)]⟩
        | .error _ =>
          let fb := getCachedData stor now cacheKey
          match fb.1 with
          | some c =>
            ⟨.ok c, ⟨setItem st.cache cacheKey c, fb.2⟩,
             evs ++ [.netGet url, .storeRead ("quran-" ++ cacheKey)]⟩
          | none =>
            ⟨.fetchError, ⟨st.cache, fb.2⟩,
             evs ++ [.netGet url, .storeRead ("quran-" ++ cacheKey)]⟩

/-- Embeds `QuranService.loadQuranIndex()` (polymorphic in the index
document type): persistent read under key `quran-index` when
`offlineFirst`, then network with a write-through carrying `indexTTL`,
then the cached fallback on network failure. -/
def loadQuranIndex {V : Type} (net : Except Unit V) (now : Nat) (offlineFirst : Bool)
    (st : Storage V) : Except Unit V × Storage V :=
  let pre := if offlineFirst then getCachedData st now "quran-index" else (none, st)
  match pre with
  | (some v, st1) => (.ok v, st1)
  | (none, st1) =>
    match net with
    | .ok d => (.ok d, setCachedData st1 now "quran-index" d indexTTL)
    | .error e =>
      let fb := getCachedData st1 now "quran-index"
      match fb.1 with
      | some v => (.ok v, fb.2)
      | none => (.error e, fb.2)

/-! ### The Dart `QuranService.getChapter` example (README) -/

inductive DartOutcome where
  | ok (c : Chapter)
  | httpError
deriving Repr, DecidableEq

/-- Embeds the Dart `QuranService.getChapter(chapterNumber)` from the
README: memory-cache check under `chapter_$n`, then an HTTP GET of
`data/quran/chapters/$padded.json`; a non-200 status throws a plain
`Failed to load chapter` exception.  There is no range validation. -/
def dartGetChapter (net : Int → Except Unit Chapter)
    (cache : List (String × Chapter)) (chapterNumber : Int) :
    DartOutcome × List (String × Chapter) × List IOEvent :=
  let cacheKey := "chapter_" ++ toString chapterNumber
  match cache.lookup cacheKey with
  | some c => (.ok c, cache, [.memRead cacheKey])
  | none =>
    let url := "data/quran/chapters/" ++ padLeft3 (toString chapterNumber) ++ ".json"
    match net chapterNumber with
    | .ok d => (.ok d, setItem cache cacheKey d, [.memRead cacheKey, .netGet url])
    | .error _ => (.httpError, cache, [.memRead cacheKey, .netGet url])

/-! ### `QuranService.searchVerses` (QuranService.js)

The source iterates `this.cache.entries()` (JS `Map` insertion order),
skips keys not starting with `chapter-`, takes per verse
`verse.translations?.["<language>.<translation>"] || ""`, lower-cases
both sides for the substring test, pushes a result record, and breaks the
inner and outer loops once `results.length >= limit`.  The function is a
pure function of the memory cache (the index fetch the source may make
does not influence the results). -/

structure SearchResult where
  chapter : Nat
  verse : Nat
  arabic : String
  translation : String
  transliteration : Option String
deriving Repr, DecidableEq

/-- `verse.translations?.[langKey] || ""`. -/
def verseText (langKey : String) (v : Verse) : String :=
  (v.translations.lookup langKey).getD ""

def mkResult (chNum : Nat) (v : Verse) (t : String) : SearchResult :=
  ⟨chNum, v.verse, v.arabic, t, v.transliteration⟩

/-- Inner loop of `searchVerses` over one chapter's `content`. -/
def searchInner (term langKey : String) (limit chNum : Nat) :
    List Verse → List SearchResult → List SearchResult
  | [], acc => acc
  | v :: vs, acc =>
    let t := verseText langKey v
    if strHasSub (lowerStr t) term then
      let acc2 := acc ++ [mkResult chNum v t]
      if limit ≤ acc2.length then acc2
      else searchInner term langKey limit chNum vs acc2
    else searchInner term langKey limit chNum vs acc

/-- Outer loop of `searchVerses` over the memory-cache entries. -/
def searchOuter (term langKey : String) (limit : Nat) :
    List (String × Chapter) → List SearchResult → List SearchResult
  | [], acc => acc
  | (ck, ch) :: rest, acc =>
    if strStarts ck "chapter-" then
      let acc2 := searchInner term langKey limit ch.chapter ch.content acc
      if limit ≤ acc2.length then acc2
      else searchOuter term langKey limit rest acc2
    else searchOuter term langKey limit rest acc

/-- Embeds `QuranService.searchVerses(query, { language, translation,
limit })`. -/
def searchVerses (cache : List (String × Chapter))
    (query language translation : String) (limit : Nat) : List SearchResult :=
  searchOuter (lowerStr query) (language ++ "." ++ translation) limit cache []

/-- Declarative matches of one chapter, in content order (spec side of the
refinement: all verses whose looked-up translation text contains the
lowered query). -/
def versesMatches (term langKey : String) (chNum : Nat) (vs : List Verse) :
    List SearchResult :=
  vs.filterMap (fun v =>
    let t := verseText langKey v
    if strHasSub (lowerStr t) term then some (mkResult chNum v t) else none)

/-- Declarative matches of the whole cache, in cache order (spec side of
the refinement). -/
def cacheMatches (term langKey : String) : List (String × Chapter) → List SearchResult
  | [] => []
  | (ck, ch) :: rest =>
    (if strStarts ck "chapter-" then versesMatches term langKey ch.chapter ch.content
     else []) ++ cacheMatches term langKey rest

def searchMatches (cache : List (String × Chapter))
    (query language translation : String) : List SearchResult :=
  cacheMatches (lowerStr query) (language ++ "." ++ translation) cache

/-! ### `QuranService.clearCache` (QuranService.js) -/

/-- Embeds `clearCache()`: `this.cache.clear()`, then removal of every
storage key starting with `quran-`; a throwing backend is caught and
leaves the storage part unchanged. -/
def clearCache (st : SvcState) : SvcState :=
  if st.storage.broken then ⟨[], st.storage⟩
  else
    ⟨[], ⟨st.storage.items.filter (fun p => !(strStarts p.1 "quran-")), st.storage.broken⟩⟩

/-! ### The Dart `HadithService.getHadith` example (README)

A collection is its `totalBooks` count plus, for each book number, the
outcome of `getBook` (`none` models a book whose load threw; the source's
`try/catch` then continues with the next book). -/

structure Hadith where
  hadithNumber : Nat
  arabic : String
  translations : List (String × String)
deriving Repr, DecidableEq

structure HCollection where
  totalBooks : Nat
  books : Nat → Option (List Hadith)

/-- The language filtering `getHadith` applies to the found record when a
`languages` list is supplied (`null` leaves the record unchanged). -/
def filterHadithLangs (langs : Option (List String)) (x : Hadith) : Hadith :=
  match langs with
  | none => x
  | some ls => { x with translations := x.translations.filter (fun p => ls.contains p.1) }

/-- `book['content'].firstWhere((h) => h['hadithNumber'] == n, orElse: null)`
for book `b`, with a failed book load giving `none`. -/
def bookMatch (c : HCollection) (hadithNumber : Nat) (b : Nat) : Option Hadith :=
  (c.books b).bind (fun l => l.find? (fun x => x.hadithNumber == hadithNumber))

/-- The `for (bookNum = 1; bookNum <= totalBooks; bookNum++)` scan. -/
def scanBooks (c : HCollection) (hadithNumber : Nat) : List Nat → Option Hadith
  | [] => none
  | b :: rest =>
    match bookMatch c hadithNumber b with
    | some x => some x
    | none => scanBooks c hadithNumber rest

/-- Embeds the Dart `HadithService.getHadith(collection, hadithNumber,
[languages])`; `none` is the final `Hadith not found` failure. -/
def getHadith (c : HCollection) (hadithNumber : Nat)
    (languages : Option (List String)) : Option Hadith :=
  (scanBooks c hadithNumber (List.range' 1 c.totalBooks)).map (filterHadithLangs languages)

/-- Declarative list of per-book first matches in ascending book order
(spec side of the refinement). -/
def hadithMatches (c : HCollection) (hadithNumber : Nat) : List Hadith :=
  (List.range' 1 c.totalBooks).filterMap (bookMatch c hadithNumber)

/-! ### Async structure of `initialize` / `preloadPriorityChapters`

A deep embedding of just the scheduling structure of the two functions:
`act` is an awaited step, `spawn` starts a task that is not awaited
(a call without `await`, or a `setTimeout` callback), `attempt` is a
`try/catch` whose body's failures do not escape.  The chapter fetches
model the cold-start behaviour of `loadChapters` (one fetch per listed
chapter). -/

inductive AsyncEvent where
  | fetchIndex
  | fetchChapter (n : Nat)
  | delayMs (ms : Nat)
deriving Repr, DecidableEq

inductive AsyncProg where
  | done
  | act (e : AsyncEvent) (k : AsyncProg)
  | spawn (bg : AsyncProg) (k : AsyncProg)
  | attempt (body : AsyncProg) (k : AsyncProg)
deriving Repr, DecidableEq

/-- Every event of a program, awaited or not. -/
def allEvents : AsyncProg → List AsyncEvent
  | .done => []
  | .act e k => e :: allEvents k
  | .spawn bg k => allEvents bg ++ allEvents k
  | .attempt body k => allEvents body ++ allEvents k

/-- The events that complete before the program's own promise resolves
(spawned tasks excluded). -/
def awaitedEvents : AsyncProg → List AsyncEvent
  | .done => []
  | .act e k => e :: awaitedEvents k
  | .spawn _ k => awaitedEvents k
  | .attempt body k => awaitedEvents body ++ awaitedEvents k

/-- The events left to spawned (un-awaited) tasks. -/
def backgroundEvents : AsyncProg → List AsyncEvent
  | .done => []
  | .act _ k => backgroundEvents k
  | .spawn bg k => allEvents bg ++ backgroundEvents k
  | .attempt body k => backgroundEvents body ++ backgroundEvents k

/-- Whether a failure of an awaited step can escape to the caller: an
`attempt` swallows its body's failures. -/
def propagates : AsyncProg → Bool
  | .done => false
  | .act _ _ => true
  | .spawn _ k => propagates k
  | .attempt _ k => propagates k

/-- `this.loadingPriority[1]` of QuranService.js. -/
def loadingPriority1 : List Nat := [1, 67, 112, 113, 114]

/-- `this.loadingPriority[2]` of QuranService.js. -/
def loadingPriority2 : List Nat := [18, 19, 20, 36, 48, 55, 56, 62, 78, 97]

/-- One awaited fetch per chapter in the list, then continue. -/
def fetchSeq (ns : List Nat) (k : AsyncProg) : AsyncProg :=
  List.foldr (fun n p => .act (.fetchChapter n) p) k ns

/-- `preloadPriorityChapters()`: `try { await loadChapters(priority1);
setTimeout(() => loadChapters(priority2), 2000); } catch { warn }`. -/
def preloadProg : AsyncProg :=
  .attempt
    (fetchSeq loadingPriority1
      (.spawn (.act (.delayMs 2000) (fetchSeq loadingPriority2 .done)) .done))
    .done

/-- `initialize()`: `try { this.index = await this.loadQuranIndex();
this.preloadPriorityChapters(); return true } catch { return false }`;
the preload call carries no `await`. -/
def initProg : AsyncProg :=
  .attempt (.act .fetchIndex (.spawn preloadProg .done)) .done

/-! ### Helper lemmas -/

theorem lookup_setItem_self {α : Type} (l : List (String × α)) (k : String) (v : α) :
    (setItem l k v).lookup k = some v := by
  induction l with
  | nil => simp [setItem]
  | cons p rest ih =>
    obtain ⟨k', v'⟩ := p
    by_cases h : k' = k
    · subst h; simp [setItem]
    · have hb : (k' == k) = false := by simp [h]
      have hb' : (k == k') = false := by simp [Ne.symm h]
      simp [setItem, hb, hb', List.lookup, ih]

theorem lookup_filter_of_pred_false {α β : Type} [BEq α] [LawfulBEq α]
    (l : List (α × β)) (q : α → Bool) (k : α) (hk : q k = false) :
    (l.filter (fun p => q p.1)).lookup k = none := by
  induction l with
  | nil => rfl
  | cons p rest ih =>
    by_cases hq : q p.1
    · have hkp : k ≠ p.1 := by
        intro h; rw [h] at hk; rw [hk] at hq; exact Bool.false_ne_true hq
      have hne : (k == p.1) = false := by simp [hkp]
      simp [List.filter_cons, hq, List.lookup, hne, ih]
    · simp [List.filter_cons, hq, ih]

theorem lookup_filter_of_pred_true {α β : Type} [BEq α] [LawfulBEq α]
    (l : List (α × β)) (q : α → Bool) (k : α) (hk : q k = true) :
    (l.filter (fun p => q p.1)).lookup k = l.lookup k := by
  induction l with
  | nil => rfl
  | cons p rest ih =>
    by_cases hq : q p.1
    · by_cases hkp : k = p.1
      · subst hkp; simp [List.filter_cons, hq, List.lookup]
      · have hne : (k == p.1) = false := by simp [hkp]
        simp [List.filter_cons, hq, List.lookup, hne, ih]
    · have hkp : ¬ (k = p.1) := fun h => hq (h ▸ hk)
      have hne : (k == p.1) = false := by simp [hkp]
      simp [List.filter_cons, hq, List.lookup, hne, ih]

theorem lookup_removeItem_self {α : Type} (l : List (String × α)) (k : String) :
    (removeItem l k).lookup k = none := by
  have := lookup_filter_of_pred_false (β := α) l (fun a => !(a == k)) k (by simp)
  simpa [removeItem] using this

/-- A `getCachedData` miss is stable: re-reading the returned storage at
the same instant still misses (in particular after an expired entry was
removed). -/
theorem getCachedData_miss_again {V : Type} (st : Storage V) (now : Nat) (key : String)
    (h : (getCachedData st now key).1 = none) :
    (getCachedData (getCachedData st now key).2 now key).1 = none := by
  by_cases hb : st.broken
  · simp [getCachedData, hb]
  · cases hlk : st.items.lookup ("quran-" ++ key) with
    | none => simp [getCachedData, hb, hlk]
    | some sv =>
      cases sv with
      | malformed => simp [getCachedData, hb, hlk]
      | item v ex c =>
        cases ex with
        | none => simp [getCachedData, hb, hlk] at h
        | some e =>
          by_cases he : now > e
          · simp [getCachedData, hb, hlk, he, lookup_removeItem_self]
          · simp [getCachedData, hb, hlk, he] at h

theorem searchInner_eq_take (term langKey : String) (limit chNum : Nat)
    (vs : List Verse) (acc : List SearchResult) (h : acc.length < limit) :
    searchInner term langKey limit chNum vs acc
      = (acc ++ versesMatches term langKey chNum vs).take limit := by
  induction vs generalizing acc with
  | nil =>
    simp only [searchInner, versesMatches, List.filterMap_nil, List.append_nil]
    exact (List.take_of_length_le (Nat.le_of_lt h)).symm
  | cons v vs ih =>
    simp only [searchInner, versesMatches, List.filterMap_cons]
    cases hm : strHasSub (lowerStr (verseText langKey v)) term with
    | false =>
      simp only [hm, Bool.false_eq_true, if_false]
      exact ih acc h
    | true =>
      simp only [hm, if_true]
      by_cases hlim : limit ≤ (acc ++ [mkResult chNum v (verseText langKey v)]).length
      · rw [if_pos hlim]
        have hassoc : acc ++ mkResult chNum v (verseText langKey v) ::
              (vs.filterMap fun v => if strHasSub (lowerStr (verseText langKey v)) term
                then some (mkResult chNum v (verseText langKey v)) else none)
            = (acc ++ [mkResult chNum v (verseText langKey v)]) ++
              (vs.filterMap fun v => if strHasSub (lowerStr (verseText langKey v)) term
                then some (mkResult chNum v (verseText langKey v)) else none) := by
          simp
        have hlen : (acc ++ [mkResult chNum v (verseText langKey v)]).length = limit := by
          simp only [List.length_append, List.length_cons, List.length_nil] at hlim ⊢
          omega
        rw [hassoc, ← hlen, List.take_left]
      · rw [if_neg hlim]
        rw [ih _ (Nat.lt_of_not_le hlim)]
        simp [versesMatches]

theorem searchOuter_eq_take (term langKey : String) (limit : Nat)
    (cache : List (String × Chapter)) (acc : List SearchResult) (h : acc.length < limit) :
    searchOuter term langKey limit cache acc
      = (acc ++ cacheMatches term langKey cache).take limit := by
  induction cache generalizing acc with
  | nil =>
    simp only [searchOuter, cacheMatches, List.append_nil]
    exact (List.take_of_length_le (Nat.le_of_lt h)).symm
  | cons p rest ih =>
    obtain ⟨ck, ch⟩ := p
    by_cases hck : strStarts ck "chapter-"
    · simp only [searchOuter, cacheMatches, hck, if_true]
      rw [searchInner_eq_take term langKey limit ch.chapter ch.content acc h]
      by_cases hlim : limit ≤
          ((acc ++ versesMatches term langKey ch.chapter ch.content).take limit).length
      · rw [if_pos hlim]
        have hlen : limit ≤ (acc ++ versesMatches term langKey ch.chapter ch.content).length := by
          rw [List.length_take] at hlim
          omega
        rw [← List.append_assoc, List.take_append_of_le_length hlen]
      · rw [if_neg hlim]
        have h2 : ((acc ++ versesMatches term langKey ch.chapter ch.content).take limit).length
            < limit := Nat.lt_of_not_le hlim
        rw [ih _ h2]
        have hlt : (acc ++ versesMatches term langKey ch.chapter ch.content).length < limit := by
          rw [List.length_take] at h2
          omega
        rw [List.take_of_length_le (Nat.le_of_lt hlt), List.append_assoc]
    · simp only [searchOuter, cacheMatches, hck, if_false, List.nil_append]
      exact ih acc h

/-- Refinement of the search loop: with a positive cap, `searchVerses` is
exactly the first `limit` entries of the declarative match list. -/
theorem searchVerses_eq_take (cache : List (String × Chapter))
    (q lang tr : String) (limit : Nat) (h : 0 < limit) :
    searchVerses cache q lang tr limit = (searchMatches cache q lang tr).take limit := by
  unfold searchVerses searchMatches
  simpa using searchOuter_eq_take (lowerStr q) (lang ++ "." ++ tr) limit cache [] (by simpa)

theorem scanBooks_eq_head (c : HCollection) (hn : Nat) (l : List Nat) :
    scanBooks c hn l = (l.filterMap (bookMatch c hn)).head? := by
  induction l with
  | nil => rfl
  | cons b rest ih =>
    cases hmb : bookMatch c hn b with
    | none => simp [scanBooks, hmb, List.filterMap_cons, ih]
    | some x => simp [scanBooks, hmb, List.filterMap_cons]

theorem getHadith_default_eq_head (c : HCollection) (hn : Nat) :
    getHadith c hn none = (hadithMatches c hn).head? := by
  unfold getHadith hadithMatches
  rw [scanBooks_eq_head]
  cases ((List.range' 1 c.totalBooks).filterMap (bookMatch c hn)).head? with
  | none => rfl
  | some x => simp [filterHadithLangs]

/-! ### Concrete fixtures used by witnesses and counterexamples -/

/-- A one-verse chapter whose Arabic text contains the word `patience`
and which has no translations at all. -/
def chA : Chapter := ⟨1, [⟨1, "patience and more", [], none⟩]⟩

/-- A network on which every fetch fails. -/
def netDown : Int → Except Unit Chapter := fun _ => .error ()

/-- Service state: empty memory cache; the persistent cache holds chapter
1 with `expires = 10` (expired at any `now > 10`). -/
def stExpired : SvcState := ⟨[], ⟨[("quran-chapter-1", .item chA (some 10) 0)], false⟩⟩

/-- Service state: empty memory cache; the persistent cache holds chapter
1 with `expires = 100` (still valid at `now = 20`). -/
def stValid : SvcState := ⟨[], ⟨[("quran-chapter-1", .item chA (some 100) 0)], false⟩⟩

/-! ### Claim C1 -/

/-- Claim C1 counterexample: the persistent cache holds an entry for
chapter 1, but it is expired at `now = 20`; with the network down,
`loadChapter 1` fails instead of returning the stored value, refuting
`regardless of the TTL state (even an expired entry)`. -/
theorem loadChapter_expired_entry_fails_cx :
    stExpired.storage.items.lookup "quran-chapter-1"
      = some (.item chA (some 10) 0)
    ∧ (loadChapter netDown 20 true stExpired 1).outcome = .fetchError := by
  constructor <;> decide

/-- Claim C1 (amended): for an in-range chapter missing from the memory
cache, when the network fetch fails `loadChapter` falls back to the
persistent cache with the same expiry check as a normal read: it returns
the entry's value exactly when a valid (unexpired, or TTL-free) entry is
present, and fails when the entry is absent, malformed, or expired (an
expired entry having been removed). -/
theorem loadChapter_netfail_ttl_checked (net : Int → Except Unit Chapter) (now : Nat)
    (offlineFirst : Bool) (st : SvcState) (n : Int)
    (h1 : 1 ≤ n) (h2 : n ≤ 114)
    (hmem : st.cache.lookup ("chapter-" ++ toString n) = none)
    (hnet : net n = .error ()) :
    (loadChapter net now offlineFirst st n).outcome
      = match (getCachedData st.storage now ("chapter-" ++ toString n)).1 with
        | some c => .ok c
        | none => .fetchError := by
  simp only [loadChapter]
  rw [if_neg (by omega : ¬(n < 1 ∨ 114 < n))]
  simp only [hmem]
  cases hofl : offlineFirst with
  | true =>
    simp only [if_true]
    cases hpre : (getCachedData st.storage now ("chapter-" ++ toString n)).1 with
    | some c => simp [hpre]
    | none =>
      have hfb := getCachedData_miss_again st.storage now ("chapter-" ++ toString n) hpre
      simp [hpre, hnet, hfb]
  | false =>
    simp only [Bool.false_eq_true, if_false]
    simp only [hnet]
    cases (getCachedData st.storage now ("chapter-" ++ toString n)).1 <;> rfl

/-- Witness for C1: with a valid persistent entry and the network down,
`loadChapter` returns the cached chapter. -/
theorem loadChapter_netfail_ttl_checked_w :
    (loadChapter netDown 20 true stValid 1).outcome = .ok chA := by
  rw [loadChapter_netfail_ttl_checked netDown 20 true stValid 1 (by decide) (by decide) rfl rfl]
  decide

/-! ### Claim C2 -/

/-- Claim C2 counterexample: from an empty cache with a succeeding
network, the index write carries a 1-day TTL (86400000 ms), not the
claimed 7 days, and the chapter write carries a 7-day TTL (604800000 ms),
not the claimed 30 days. -/
theorem cache_write_ttls_cx :
    (loadQuranIndex (V := Chapter) (.ok chA) 0 true ⟨[], false⟩).2.items.lookup
        "quran-quran-index" = some (.item chA (some 86400000) 0)
    ∧ (86400000 : Nat) ≠ 7 * 24 * 60 * 60 * 1000
    ∧ (loadChapter (fun _ => .ok chA) 0 true ⟨[], ⟨[], false⟩⟩ 1).state.storage.items.lookup
        "quran-chapter-1" = some (.item chA (some 604800000) 0)
    ∧ (604800000 : Nat) ≠ 30 * 24 * 60 * 60 * 1000 := by
  refine ⟨by decide, by decide, by decide, by decide⟩

/-- Claim C2 (amended): the index write-through carries `indexTTL`
(`24 * 60 * 60 * 1000`, one day) and the chapter write-through carries
`chapterTTL` (`7 * 24 * 60 * 60 * 1000`, seven days); these are the only
persistent writes the accessors perform. -/
theorem cache_write_ttls (d c : Chapter) (now : Nat) (ofl : Bool) (n : Int)
    (h1 : 1 ≤ n) (h2 : n ≤ 114) :
    ((loadQuranIndex (.ok d) now ofl (⟨[], false⟩ : Storage Chapter)).2.items.lookup
        ("quran-" ++ "quran-index") = some (.item d (some (now + indexTTL)) now))
    ∧ ((loadChapter (fun _ => .ok c) now ofl ⟨[], ⟨[], false⟩⟩ n).state.storage.items.lookup
        ("quran-" ++ ("chapter-" ++ toString n)) = some (.item c (some (now + chapterTTL)) now)) := by
  constructor
  · cases ofl <;>
      simp [loadQuranIndex, getCachedData, setCachedData, indexTTL, setItem, List.lookup]
  · simp only [loadChapter]
    rw [if_neg (by omega : ¬(n < 1 ∨ 114 < n))]
    cases ofl <;>
      simp [getCachedData, setCachedData, chapterTTL, lookup_setItem_self, List.lookup]

/-- Witness for C2 at `n = 1`, `now = 0`. -/
theorem cache_write_ttls_w :
    ((loadQuranIndex (.ok chA) 0 true (⟨[], false⟩ : Storage Chapter)).2.items.lookup
        ("quran-" ++ "quran-index") = some (.item chA (some (0 + indexTTL)) 0))
    ∧ ((loadChapter (fun _ => .ok chA) 0 true ⟨[], ⟨[], false⟩⟩ 1).state.storage.items.lookup
        ("quran-" ++ ("chapter-" ++ toString (1 : Int)))
        = some (.item chA (some (0 + chapterTTL)) 0)) :=
  cache_write_ttls chA chA 0 true 1 (by decide) (by decide)

/-! ### Claim C3 -/

/-- Claim C3 counterexample: the Dart `getChapter` example has no range
validation; at chapter 0 it reads the memory cache and issues a network
request, and fails with the generic fetch failure, not an
invalid-argument failure. -/
theorem dartGetChapter_out_of_range_io_cx :
    (dartGetChapter netDown [] 0).2.2
      = [IOEvent.memRead "chapter_0", IOEvent.netGet "data/quran/chapters/000.json"]
    ∧ (dartGetChapter netDown [] 0).1 = DartOutcome.httpError := by
  constructor <;> decide

/-- Claim C3 (amended): the JS `loadChapter` validates the chapter number
before any I/O: outside 1..114 it fails immediately with the
invalid-chapter error, performs no memory read, no storage read and no
network request, and leaves the state unchanged.  (The Dart `getChapter`
example performs no such validation.) -/
theorem loadChapter_invalid_no_io (net : Int → Except Unit Chapter) (now : Nat)
    (ofl : Bool) (st : SvcState) (n : Int) (h : n < 1 ∨ 114 < n) :
    loadChapter net now ofl st n = ⟨.invalidChapter, st, []⟩ := by
  simp only [loadChapter]
  rw [if_pos h]

/-- Witness for C3 at `n = 0`. -/
theorem loadChapter_invalid_no_io_w :
    loadChapter netDown 0 true ⟨[], ⟨[], false⟩⟩ 0 = ⟨.invalidChapter, ⟨[], ⟨[], false⟩⟩, []⟩ :=
  loadChapter_invalid_no_io netDown 0 true _ 0 (Or.inl (by decide))

/-! ### Claim C4 -/

/-- Claim C4 counterexample: an entry written at time 0 with TTL 5 is
still returned by a read at time 5, which is not strictly before
`expiresAt = 5`; the validity condition is `now ≤ expiresAt`, not
`now < expiresAt`. -/
theorem cache_ttl_boundary_cx :
    (getCachedData (setCachedData (⟨[], false⟩ : Storage Nat) 0 "kk" 42 5) 5 "kk").1 = some 42
    ∧ ¬ ((5 : Nat) < 5) := by
  constructor <;> decide

/-- Claim C4 (amended): writing with TTL `t > 0` records
`expires = storedAt + t`; a read returns the value exactly when the read
time is at most `storedAt + t` (misses strictly after it), and an entry
written with no TTL (`expires` absent) is returned at every read time. -/
theorem setCachedData_roundtrip {V : Type} (st st2 : Storage V) (now t : Nat)
    (key : String) (v : V) (hb : st.broken = false) (ht : 0 < t)
    (hst : st2 = setCachedData st now key v t) :
    st2.items.lookup ("quran-" ++ key) = some (.item v (some (now + t)) now)
    ∧ (∀ rt, rt ≤ now + t → (getCachedData st2 rt key).1 = some v)
    ∧ (∀ rt, now + t < rt → (getCachedData st2 rt key).1 = none)
    ∧ (∀ rt, (getCachedData (setCachedData st now key v 0) rt key).1 = some v) := by
  have hb2 : st2.broken = false := by rw [hst]; simp [setCachedData, hb]
  have hl : st2.items.lookup ("quran-" ++ key) = some (.item v (some (now + t)) now) := by
    rw [hst]; simp [setCachedData, hb, ht, lookup_setItem_self]
  refine ⟨hl, ?_, ?_, ?_⟩
  · intro rt hrt
    simp [getCachedData, hb2, hl, Nat.not_lt.mpr hrt]
  · intro rt hrt
    simp [getCachedData, hb2, hl, hrt]
  · intro rt
    have hl0 : (setCachedData st now key v 0).items.lookup ("quran-" ++ key)
        = some (.item v none now) := by
      simp [setCachedData, hb, lookup_setItem_self]
    have hb0 : (setCachedData st now key v 0).broken = false := by
      simp [setCachedData, hb]
    simp [getCachedData, hb0, hl0]

/-- Witness for C4: the immediate-read half at a concrete write. -/
theorem setCachedData_roundtrip_w :
    (getCachedData (setCachedData (⟨[], false⟩ : Storage Nat) 0 "k" 42 5) 3 "k").1 = some 42 :=
  (setCachedData_roundtrip (⟨[], false⟩ : Storage Nat) _ 0 5 "k" 42 rfl (by decide) rfl).2.1
    3 (by decide)

/-! ### Claim C5 -/

/-- Claim C5 counterexample: the cache holds a verse whose Arabic text
contains `patience` and which has no translations, yet the search
returns nothing: a missing translation is replaced by the empty string,
not by the Arabic text, so the claimed source-language fallback does not
exist. -/
theorem searchVerses_no_arabic_fallback_cx :
    searchVerses [("chapter-1", chA)] "patience" "en" "sahih" 50 = []
    ∧ strHasSub (lowerStr "patience and more") (lowerStr "patience") = true
    ∧ chA.content.map Verse.arabic = ["patience and more"]
    ∧ chA.content.map Verse.translations = [[]] := by
  refine ⟨by decide, by decide, by decide, by decide⟩

/-- Claim C5 (amended): `searchVerses` is a pure function of the memory
cache (no chapter is fetched): over the `chapter-` entries in cache
order, a verse matches exactly when the translation stored under the key
`language ++ "." ++ translation` — taken as the empty string when absent,
with no Arabic fallback — contains the query case-insensitively, and the
result is the first `limit` such matches. -/
theorem searchVerses_matches_spec (cache : List (String × Chapter))
    (q lang tr : String) (limit : Nat) (h : 0 < limit) :
    searchVerses cache q lang tr limit = (searchMatches cache q lang tr).take limit :=
  searchVerses_eq_take cache q lang tr limit h

/-- Witness for C5 at a concrete cache. -/
theorem searchVerses_matches_spec_w :
    searchVerses [("chapter-1", chA)] "patience" "en" "sahih" 50
      = (searchMatches [("chapter-1", chA)] "patience" "en" "sahih").take 50 :=
  searchVerses_matches_spec [("chapter-1", chA)] "patience" "en" "sahih" 50 (by decide)

/-! ### Claim C6 -/

/-- Chapter 5 fixture, inserted into the memory cache before chapter 2. -/
def ch5 : Chapter := ⟨5, [⟨1, "x", [("en.sahih", "sabr patience")], none⟩]⟩

/-- Chapter 2 fixture. -/
def ch2 : Chapter := ⟨2, [⟨3, "y", [("en.sahih", "have patience now")], none⟩]⟩

/-- Claim C6 counterexample: with chapter 5 inserted into the memory
cache before chapter 2, both matching, the results come back as
chapter 5 before chapter 2 — memory-cache insertion order, not chapter
ascending. -/
theorem searchVerses_insertion_order_cx :
    (searchVerses [("chapter-5", ch5), ("chapter-2", ch2)] "patience" "en" "sahih" 50).map
        SearchResult.chapter = [5, 2]
    ∧ ¬ ((5 : Nat) ≤ 2) := by
  constructor <;> decide

/-- Claim C6 (amended): with a positive cap, `searchVerses` returns at
most `limit` matches, and the returned list is an initial segment of the
declarative match list, whose order is memory-cache insertion order of
chapters with content (verse) order inside each chapter. -/
theorem searchVerses_cap_and_order (cache : List (String × Chapter))
    (q lang tr : String) (limit : Nat) (h : 0 < limit) :
    (searchVerses cache q lang tr limit).length ≤ limit
    ∧ ∃ rest, searchMatches cache q lang tr = searchVerses cache q lang tr limit ++ rest := by
  rw [searchVerses_eq_take cache q lang tr limit h]
  constructor
  · rw [List.length_take]; exact Nat.min_le_left _ _
  · exact ⟨(searchMatches cache q lang tr).drop limit, (List.take_append_drop _ _).symm⟩

/-- Witness for C6: the cap at a concrete cache with `limit = 1`. -/
theorem searchVerses_cap_and_order_w :
    (searchVerses [("chapter-5", ch5), ("chapter-2", ch2)] "patience" "en" "sahih" 1).length ≤ 1 :=
  (searchVerses_cap_and_order [("chapter-5", ch5), ("chapter-2", ch2)]
    "patience" "en" "sahih" 1 (by decide)).1

/-! ### Claim C7 -/

/-- Claim C7 counterexample: chapter 1 is in the essential
(priority-1) list, but its fetch is not among the events awaited before
the promise of the client's start-up routine resolves — the preload call
carries no `await`. -/
theorem preload_not_awaited_cx :
    (1 ∈ loadingPriority1)
    ∧ ¬ (AsyncEvent.fetchChapter 1 ∈ awaitedEvents initProg) := by
  constructor <;> decide

/-- Claim C7 (amended): the start-up routine awaits only the index fetch
before returning; the essential-chapter fetches and, after a fixed
2000 ms delay, the popular-chapter fetches all run in spawned
(un-awaited) background tasks; and neither the start-up routine nor the
preloader propagates a failure to its caller (both are wrapped in
`try/catch`). -/
theorem initProg_schedule :
    awaitedEvents initProg = [AsyncEvent.fetchIndex]
    ∧ backgroundEvents initProg
        = (loadingPriority1.map AsyncEvent.fetchChapter)
            ++ AsyncEvent.delayMs 2000 :: (loadingPriority2.map AsyncEvent.fetchChapter)
    ∧ propagates initProg = false
    ∧ propagates preloadProg = false := by
  refine ⟨by decide, by decide, by decide, by decide⟩

/-! ### Claim C8 -/

/-- Claim C8 (confirmed): `getHadith` is the head of the list of
per-book first matches taken in ascending book order `1..totalBooks`
(so it returns the first record with the requested `hadithNumber` in the
first book containing one), and it fails exactly when no book in
`1..totalBooks` contains a match. -/
theorem getHadith_scan_spec (c : HCollection) (hn : Nat) :
    getHadith c hn none = (hadithMatches c hn).head?
    ∧ (getHadith c hn none = none ↔
        ∀ b, 1 ≤ b → b ≤ c.totalBooks → bookMatch c hn b = none) := by
  have he := getHadith_default_eq_head c hn
  refine ⟨he, ?_⟩
  rw [he, List.head?_eq_none_iff, hadithMatches, List.filterMap_eq_nil_iff]
  constructor
  · intro hall b hb1 hb2
    exact hall b (List.mem_range'_1.mpr ⟨hb1, by omega⟩)
  · intro hall b hb
    obtain ⟨hb1, hb2⟩ := List.mem_range'_1.mp hb
    exact hall b hb1 (by omega)

/-! ### Claim C9 -/

/-- Claim C9 (confirmed, for a functioning backend): after `clearCache`
the memory cache is empty, every storage key starting with `quran-` is
gone, and every other key maps to its previous value. -/
theorem clearCache_spec (st : SvcState) (hb : st.storage.broken = false) :
    (clearCache st).cache = []
    ∧ ∀ k : String,
        (strStarts k "quran-" = true → (clearCache st).storage.items.lookup k = none)
        ∧ (strStarts k "quran-" = false →
            (clearCache st).storage.items.lookup k = st.storage.items.lookup k) := by
  constructor
  · simp [clearCache, hb]
  · intro k
    constructor
    · intro hk
      have := lookup_filter_of_pred_false st.storage.items
        (fun a => !(strStarts a "quran-")) k (by simp [hk])
      simpa [clearCache, hb] using this
    · intro hk
      have := lookup_filter_of_pred_true st.storage.items
        (fun a => !(strStarts a "quran-")) k (by simp [hk])
      simpa [clearCache, hb] using this

/-- A state with one namespaced and one foreign storage key. -/
def stMix : SvcState :=
  ⟨[("chapter-1", chA)], ⟨[("quran-chapter-1", .item chA none 0), ("other", .malformed)], false⟩⟩

/-- Witness for C9 at a concrete state. -/
theorem clearCache_spec_w :
    (clearCache stMix).cache = []
    ∧ (clearCache stMix).storage.items.lookup "quran-chapter-1" = none := by
  refine ⟨(clearCache_spec stMix rfl).1, ?_⟩
  exact ((clearCache_spec stMix rfl).2 "quran-chapter-1").1 (by decide)

/-! ### Claim C10 -/

/-- Claim C10 (confirmed): `getCachedData` is a total function, and each
failure mode of the source body — a throwing backend, an absent stored
string, an unparseable stored string — is caught and reported as a miss
(`none`) rather than propagated. -/
theorem getCachedData_total_miss {V : Type} (st : Storage V) (now : Nat) (key : String)
    (h : st.broken = true
        ∨ st.items.lookup ("quran-" ++ key) = none
        ∨ st.items.lookup ("quran-" ++ key) = some .malformed) :
    (getCachedData st now key).1 = none := by
  rcases h with hb | hl | hl
  · simp [getCachedData, hb]
  · by_cases hb : st.broken <;> simp [getCachedData, hb, hl]
  · by_cases hb : st.broken <;> simp [getCachedData, hb, hl]

/-- Witness for C10: a throwing backend yields a miss. -/
theorem getCachedData_total_miss_w :
    (getCachedData (⟨[], true⟩ : Storage Nat) 0 "k").1 = none :=
  getCachedData_total_miss (⟨[], true⟩ : Storage Nat) 0 "k" (Or.inl rfl)

end JustDeen
